import Mathlib

/-!
Shallow embedding of the UTAP document model (src/include/utap/document.h).

External handles (symbol_t, expression_t, position_t) are opaque in the
source; they are embedded as natural numbers, since the document model only
stores them and compares them for equality.

Functions whose bodies are visible in document.h are translated directly.
Functions only declared there (their bodies live in a separate .cpp
translation unit) are modelled from the specification; each such definition
carries a doc comment starting with "Modelled from the spec:".
-/

namespace UTAP

/-- Opaque scope handle (document.h includes utap/symbols.h); only identity matters here. -/
abbrev symbol_t := Nat

/-- Opaque expression handle (document.h includes utap/expression.h); only identity matters here. -/
abbrev expression_t := Nat

/-- Opaque source position (document.h includes utap/position.h). -/
abbrev position_t := Nat

/-- SupportedMethods (document.h lines 40-45): all three flags default to true. -/
structure SupportedMethods where
  symbolic : Bool := true
  stochastic : Bool := true
  concrete : Bool := true
deriving DecidableEq, Repr

/-- A diagnostic bound to a source position (error_t comes from utap/position.h;
only the fields the document model stores are represented). -/
structure error_t where
  position : position_t := 0
  msg : String := ""
  ctx : String := ""
deriving DecidableEq, Repr

/-- A dynamically loaded library (library_t comes from utap/dynlib.h); opaque here. -/
structure library_t where
  name : String := ""
deriving DecidableEq, Repr

/-- The Document state relevant to the claims under study: the interned string
table, diagnostics, libraries, the document-wide boolean flags and the
supported-methods record (document.h lines 517-706). -/
structure Document where
  hasUrgentTrans : Bool := false
  hasPriorities : Bool := false
  hasStrictInv : Bool := false
  stopsClock : Bool := false
  hasStrictLowControlledGuards : Bool := false
  hasGuardOnRecvBroadcast : Bool := false
  syncUsed : Int := 0
  modified : Bool := false
  libraries : List library_t := []
  strings : List String := []
  supported_methods : SupportedMethods := {}
  errors : List error_t := []
  warnings : List error_t := []
deriving DecidableEq, Repr

/-- Linear search as std::find does over the strings vector: the index of the
first occurrence of `s`, or none. -/
def find_string : List String → String → Option Nat
  | [], _ => none
  | x :: xs, s => if x = s then some 0 else (find_string xs s).map (· + 1)

/-- Document::add_string (document.h line 627): unconditional push_back. -/
def Document.add_string (doc : Document) (s : String) : Document :=
  { doc with strings := doc.strings ++ [s] }

/-- Document::add_string_if_new (document.h lines 628-637): if `std::find` does
not find the string, push it back and return the new last index, otherwise
return the index of the existing entry and leave the table unchanged. -/
def Document.add_string_if_new (doc : Document) (s : String) : Nat × Document :=
  match find_string doc.strings s with
  | none => (doc.strings.length, { doc with strings := doc.strings ++ [s] })
  | some i => (i, doc)

/-- Document::get_strings (document.h line 626). -/
def Document.get_strings (doc : Document) : List String := doc.strings

end UTAP

namespace UTAP

/-- Document::has_errors (document.h line 688): true iff the error vector is nonempty. -/
def Document.has_errors (doc : Document) : Bool := !doc.errors.isEmpty

/-- Document::has_warnings (document.h line 689). -/
def Document.has_warnings (doc : Document) : Bool := !doc.warnings.isEmpty

/-- Document::get_errors (document.h line 690). -/
def Document.get_errors (doc : Document) : List error_t := doc.errors

/-- Document::get_warnings (document.h line 691). -/
def Document.get_warnings (doc : Document) : List error_t := doc.warnings

/-- Document::clear_errors (document.h line 692). -/
def Document.clear_errors (doc : Document) : Document := { doc with errors := [] }

/-- Document::clear_warnings (document.h line 693). -/
def Document.clear_warnings (doc : Document) : Document := { doc with warnings := [] }

/-- Modelled from the spec: Document::add_error (declared at document.h line 686,
body defined outside document.h) records one diagnostic tied to a source
position and an optional context string; it never throws and never drops a
previously recorded diagnostic. -/
def Document.add_error (doc : Document) (pos : position_t) (msg ctx : String) : Document :=
  { doc with errors := doc.errors ++ [{ position := pos, msg := msg, ctx := ctx }] }

/-- Modelled from the spec: Document::add_warning (declared at document.h line 687,
body defined outside document.h), same accumulation for warnings. -/
def Document.add_warning (doc : Document) (pos : position_t) (msg ctx : String) : Document :=
  { doc with warnings := doc.warnings ++ [{ position := pos, msg := msg, ctx := ctx }] }

/-- Applies add_error n times (with fixed arguments; add_error ignores its
arguments when counting). -/
def iterate_add_error (doc : Document) : Nat → Document
  | 0 => doc
  | n + 1 => (iterate_add_error doc n).add_error 0 "error" ""

/-- Document::add (declared at document.h line 683): registers a successfully
loaded library by appending it to the libraries vector. -/
def Document.add (doc : Document) (lib : library_t) : Document :=
  { doc with libraries := doc.libraries ++ [lib] }

/-- Modelled from the spec: Document::last_library (declared at document.h
lines 684-685, body defined outside document.h) "Returns the last successfully
loaded library, or throws std::runtime_error"; the throw is embedded as
Except.error and no diagnostic is recorded on the document. -/
def Document.last_library (doc : Document) : Except String library_t :=
  match doc.libraries.getLast? with
  | none => .error "runtime_error"
  | some lib => .ok lib

/-- Information about a partial instance of a template (document.h lines
335-351): the parameter frame holds the unbound parameters as a prefix
followed by the bound ones, mapping binds parameters to argument expressions,
arguments counts the arguments supplied by this partial instance and unbound
the still-unbound parameters. The opaque templ back-pointer is left out. -/
structure instance_t where
  uid : symbol_t := 0
  parameters : List symbol_t := []
  mapping : List (symbol_t × expression_t) := []
  arguments : Nat := 0
  unbound : Nat := 0
  restricted : List symbol_t := []
deriving DecidableEq, Repr

/-- Modelled from the spec: Document::add_instance (declared at document.h
lines 558-559, body defined outside document.h). Specializes base with the
argument expressions, each bound in order to the leading unbound parameters
of base; the new parameter frame is the concatenation of the still-unbound
parameters of base (in original order), the newly introduced parameters, and
the bound parameters; the mapping is base's mapping plus the new bindings;
restricted variables are propagated; an ArityMismatch is reported when more
arguments are supplied than base has unbound parameters. -/
def add_instance (name : symbol_t) (base : instance_t) (params : List symbol_t)
    (args : List expression_t) : Except String instance_t :=
  if args.length ≤ base.unbound then
    let k := args.length
    let newly_bound := base.parameters.take k
    let still_unbound := (base.parameters.take base.unbound).drop k
    let bound_tail := base.parameters.drop base.unbound
    .ok { uid := name
          parameters := still_unbound ++ params ++ newly_bound ++ bound_tail
          mapping := base.mapping ++ newly_bound.zip args
          arguments := k
          unbound := base.unbound - k + params.length
          restricted := base.restricted }
  else
    .error "ArityMismatch"

/-- Common members among LSC elements (document.h lines 204-211): placement in
the input file (nr), vertical location and the prechart flag. -/
structure LSC_element_t where
  nr : Int := -1
  location : Int := -1
  is_in_prechart : Bool := false
deriving DecidableEq, Repr

/-- LSC_element_t::empty (document.h line 210): an element with nr == -1 is the
empty sentinel. -/
def LSC_element_t.empty (e : LSC_element_t) : Bool := e.nr == -1

/-- Information about a message (document.h lines 217-222); the source and
destination instance lines are referenced by their instance number. -/
structure message_t extends LSC_element_t where
  src : Option Nat := none
  dst : Option Nat := none
  label : expression_t := 0
deriving DecidableEq, Repr

/-- Information about a condition (document.h lines 226-231). -/
structure condition_t extends LSC_element_t where
  anchors : List Nat := []
  label : expression_t := 0
  isHot : Bool := false
deriving DecidableEq, Repr

/-- Information about an update (document.h lines 236-240). -/
structure update_t extends LSC_element_t where
  anchor : Option Nat := none
  label : expression_t := 0
deriving DecidableEq, Repr

/-- A simregion (document.h lines 242-273): one vertical slot, holding the
message, condition and update occurring there; each member defaults to the
empty sentinel (the C++ constructor allocates empty elements). -/
structure simregion_t where
  nr : Int := 0
  message : message_t := {}
  condition : condition_t := {}
  update : update_t := {}
deriving DecidableEq, Repr

/-- simregion_t::has_message (document.h line 267): the member is not the empty sentinel. -/
def simregion_t.has_message (s : simregion_t) : Bool := !s.message.empty

/-- simregion_t::has_condition (document.h line 268). -/
def simregion_t.has_condition (s : simregion_t) : Bool := !s.condition.empty

/-- simregion_t::has_update (document.h line 269). -/
def simregion_t.has_update (s : simregion_t) : Bool := !s.update.empty

/-- Modelled from the spec: simregion_t::get_loc (declared at document.h line
249, body defined outside document.h) returns the vertical location of the
simregion, taken from whichever member is present, in the construction order
of simregion_t: message first, then condition, then update; -1 when empty. -/
def simregion_t.get_loc (s : simregion_t) : Int :=
  if s.has_message then s.message.location
  else if s.has_condition then s.condition.location
  else if s.has_update then s.update.location
  else -1

/-- Modelled from the spec: simregion_t::is_in_prechart (declared at
document.h line 250, body defined outside document.h); all present members
share the same prechart flag by construction, so the flag of the first
present member (message, then condition, then update) is returned. -/
def simregion_t.is_in_prechart (s : simregion_t) : Bool :=
  if s.has_message then s.message.is_in_prechart
  else if s.has_condition then s.condition.is_in_prechart
  else if s.has_update then s.update.is_in_prechart
  else false

/-- compare_simregion (document.h lines 275-278): simregions are ordered by
their vertical location. -/
def compare_simregion (x y : simregion_t) : Bool := x.get_loc < y.get_loc

/-- A cut (document.h lines 280-304): an unordered collection of simregions. -/
structure cut_t where
  nr : Int := 0
  simregions : List simregion_t := []
deriving DecidableEq, Repr

/-- cut_t::add (document.h line 285): push_back. -/
def cut_t.add (c : cut_t) (s : simregion_t) : cut_t :=
  { c with simregions := c.simregions ++ [s] }

/-- cut_t::contains (declared at document.h line 287): membership by value. -/
def cut_t.contains (c : cut_t) (s : simregion_t) : Bool := c.simregions.contains s

/-- Modelled from the spec: cut_t::is_in_prechart() (declared at document.h
line 300, body defined outside document.h): the cut is in the prechart when
every simregion it contains is in the prechart. -/
def cut_t.is_in_prechart (c : cut_t) : Bool :=
  c.simregions.all simregion_t.is_in_prechart

/-- Modelled from the spec: cut_t::is_in_prechart(fSimregion) (declared at
document.h line 299, body defined outside document.h, documented at lines
289-298): the cut is in the prechart given a following simregion when the cut
itself is in the prechart and the following simregion is too. -/
def cut_t.is_in_prechart_given (c : cut_t) (f : simregion_t) : Bool :=
  c.is_in_prechart && f.is_in_prechart

/-- Modelled from the spec: cut_t::equals (declared at document.h line 302,
body defined outside document.h): two cuts are equal iff they contain the same
set of simregions, compared by value, independent of insertion order. -/
def cut_t.equals (x y : cut_t) : Bool :=
  x.simregions.all y.contains && y.simregions.all x.contains

/-- Builds a cut by adding the given simregions one at a time with cut_t::add. -/
def build_cut (ss : List simregion_t) : cut_t :=
  ss.foldl cut_t.add { nr := 0 }

/-- In the derived partial order of an LSC scenario (the simregion sequence in
chart order), the cut after the first n simregions. -/
def cut_at (chart : List simregion_t) (n : Nat) : cut_t :=
  { nr := Int.ofNat n, simregions := chart.take n }

/-- The simregions immediately following the cut after the first n simregions
of the chart: the next simregion of the order, when one exists. -/
def immediate_followers (chart : List simregion_t) (n : Nat) : List simregion_t :=
  (chart.drop n).take 1

/-- The construction of the partial order places every simregion that leaves
the prechart after all prechart simregions: whenever a later simregion is in
the prechart, so is every earlier one. -/
def prechart_downward_closed (chart : List simregion_t) : Prop :=
  chart.Pairwise fun a b => b.is_in_prechart = true → a.is_in_prechart = true

/-- Information about an edge (document.h lines 106-122): a source and a
destination, each either a location or a branchpoint; the unused pointer of
each pair is null (none). Locations and branchpoints are referenced by their
symbols. Expression-valued members not needed by the claims are left out. -/
structure edge_t where
  nr : Int := 0
  control : Bool := false
  actname : String := ""
  src : Option symbol_t := none
  srcb : Option symbol_t := none
  dst : Option symbol_t := none
  dstb : Option symbol_t := none
deriving DecidableEq, Repr

/-- The parts of template_t (document.h lines 362-426) the claims need: the
symbols of its locations and branchpoints, its edges, and its LSC elements
(messages, conditions, updates). -/
structure template_t where
  locations : List symbol_t := []
  branchpoints : List symbol_t := []
  edges : List edge_t := []
  messages : List message_t := []
  conditions : List condition_t := []
  updates : List update_t := []
  has_prechart : Bool := false
deriving DecidableEq, Repr

/-- The construction error raised when an edge endpoint symbol resolves to
neither a location nor a branchpoint of the template. -/
inductive AddEdgeError where
  | UnknownEndpoint
deriving DecidableEq, Repr

/-- Resolves an endpoint symbol against the template's location and
branchpoint tables: the (location, branchpoint) pointer pair with exactly one
side set, or none when the symbol resolves to neither. -/
def resolve_endpoint (t : template_t) (s : symbol_t) :
    Option (Option symbol_t × Option symbol_t) :=
  if s ∈ t.locations then some (some s, none)
  else if s ∈ t.branchpoints then some (none, some s)
  else none

/-- Modelled from the spec: template_t::add_edge (declared at document.h line
388, body defined outside document.h). Resolves both endpoint symbols against
the template's location and branchpoint tables; when either resolves to
neither, an UnknownEndpoint error is produced and the edge collection is left
unchanged; otherwise one edge is appended with exactly one endpoint-kind
pointer set per side. -/
def template_t.add_edge (t : template_t) (src dst : symbol_t) (control : Bool)
    (actname : String) : template_t × List AddEdgeError :=
  match resolve_endpoint t src, resolve_endpoint t dst with
  | some s, some d =>
      ({ t with edges := t.edges ++ [{ nr := Int.ofNat t.edges.length, control := control,
                                       actname := actname, src := s.1, srcb := s.2,
                                       dst := d.1, dstb := d.2 }] }, [])
  | _, _ => (t, [.UnknownEndpoint])

/-- Inserts a vertical location into a sorted list of distinct locations,
keeping it sorted and dropping a duplicate. -/
def insert_loc (x : Int) : List Int → List Int
  | [] => [x]
  | y :: ys =>
      if x < y then x :: y :: ys
      else if x = y then y :: ys
      else y :: insert_loc x ys

/-- Sorts a list of vertical locations, removing duplicates: the distinct
vertical slots in ascending order. -/
def sort_locs : List Int → List Int
  | [] => []
  | x :: xs => insert_loc x (sort_locs xs)

/-- The vertical locations of all LSC events of the template. -/
def event_locations (t : template_t) : List Int :=
  t.messages.map (·.location) ++ t.conditions.map (·.location) ++ t.updates.map (·.location)

/-- The simregion of one distinct vertical slot: the message, condition and
update of the template occurring at that vertical location (the first of each
kind, in input order), each defaulting to the empty sentinel. -/
def region_at (t : template_t) (loc : Int) : simregion_t :=
  { nr := 0
    message := (t.messages.find? fun m => m.location == loc).getD {}
    condition := (t.conditions.find? fun c => c.location == loc).getD {}
    update := (t.updates.find? fun u => u.location == loc).getD {} }

/-- Modelled from the spec: template_t::get_simregions (declared at document.h
line 416, body defined outside document.h) merges all events attached to the
instance lines of the template into a single sequence ordered by vertical
location (compare_simregion), producing one simregion per distinct vertical
slot; the message, condition and update at the same vertical location are
combined into that slot's simregion in construction order (message, then
condition, then update), and absent members stay the empty sentinel. -/
def template_t.get_simregions (t : template_t) : List simregion_t :=
  (sort_locs (event_locations t)).map (region_at t)

/-- The public Document mutation operations of document.h, as far as they
touch the state embedded in Document. Operations whose bodies are
defined outside document.h are modelled from the spec: begin_chan_priority and
set_proc_priority record that the document has a priority declaration, and no
public operation ever resets a document-wide flag. -/
inductive DocOp where
  | record_strict_invariant
  | record_stop_watch
  | record_strict_lower_bound_on_controllable_edges
  | clock_guard_recv_broadcast
  | set_urgent_transition
  | begin_chan_priority
  | set_proc_priority
  | set_sync_used (s : Int)
  | set_modified (b : Bool)
  | add_error_op (pos : position_t) (msg ctx : String)
  | add_warning_op (pos : position_t) (msg ctx : String)
  | clear_errors_op
  | clear_warnings_op
  | add_string_op (s : String)
  | add_string_if_new_op (s : String)
  | add_library_op (lib : library_t)
  | set_supported_methods_op (m : SupportedMethods)
deriving DecidableEq, Repr

/-- Document::set_supported_methods (declared at document.h line 697). -/
def Document.set_supported_methods (doc : Document) (m : SupportedMethods) : Document :=
  { doc with supported_methods := m }

/-- Document::get_supported_methods (document.h line 698). -/
def Document.get_supported_methods (doc : Document) : SupportedMethods :=
  doc.supported_methods

/-- Applies one public Document operation. The record operations
(document.h lines 596-623) only ever set their flag to true. -/
def Document.apply (doc : Document) : DocOp → Document
  | .record_strict_invariant => { doc with hasStrictInv := true }
  | .record_stop_watch => { doc with stopsClock := true }
  | .record_strict_lower_bound_on_controllable_edges =>
      { doc with hasStrictLowControlledGuards := true }
  | .clock_guard_recv_broadcast => { doc with hasGuardOnRecvBroadcast := true }
  | .set_urgent_transition => { doc with hasUrgentTrans := true }
  | .begin_chan_priority => { doc with hasPriorities := true }
  | .set_proc_priority => { doc with hasPriorities := true }
  | .set_sync_used s => { doc with syncUsed := s }
  | .set_modified b => { doc with modified := b }
  | .add_error_op pos msg ctx => doc.add_error pos msg ctx
  | .add_warning_op pos msg ctx => doc.add_warning pos msg ctx
  | .clear_errors_op => doc.clear_errors
  | .clear_warnings_op => doc.clear_warnings
  | .add_string_op s => doc.add_string s
  | .add_string_if_new_op s => (doc.add_string_if_new s).2
  | .add_library_op lib => doc.add lib
  | .set_supported_methods_op m => doc.set_supported_methods m

/-- Runs a sequence of public Document operations. -/
def Document.run (doc : Document) (ops : List DocOp) : Document :=
  ops.foldl Document.apply doc

/-- Document::has_priority_declaration (document.h line 597). -/
def Document.has_priority_declaration (doc : Document) : Bool := doc.hasPriorities

/-- Document::has_strict_invariants (document.h line 600). -/
def Document.has_strict_invariants (doc : Document) : Bool := doc.hasStrictInv

/-- Document::has_stop_watch (document.h line 606). -/
def Document.has_stop_watch (doc : Document) : Bool := doc.stopsClock

/-- Document::has_strict_lower_bound_on_controllable_edges (document.h line 612). -/
def Document.has_strict_lower_bound_on_controllable_edges (doc : Document) : Bool :=
  doc.hasStrictLowControlledGuards

/-- Document::has_clock_guard_recv_broadcast (document.h line 618). -/
def Document.has_clock_guard_recv_broadcast (doc : Document) : Bool :=
  doc.hasGuardOnRecvBroadcast

/-- Document::has_urgent_transition (document.h line 623). -/
def Document.has_urgent_transition (doc : Document) : Bool := doc.hasUrgentTrans

/-- True for the operation that replaces the supported-methods record. -/
def DocOp.is_set_supported_methods : DocOp → Bool
  | .set_supported_methods_op _ => true
  | _ => false

/-- A concrete base instance with two unbound parameters and no bindings. -/
def base_instance : instance_t :=
  { uid := 0, parameters := [1, 2], mapping := [], arguments := 0, unbound := 2, restricted := [] }

/-- A concrete simregion inside the prechart (a message at vertical location 0). -/
def prechart_region : simregion_t :=
  { nr := 0, message := { nr := 0, location := 0, is_in_prechart := true } }

/-- A concrete simregion outside the prechart (a message at vertical location 1). -/
def mainchart_region : simregion_t :=
  { nr := 1, message := { nr := 1, location := 1, is_in_prechart := false } }

/-- A concrete chart whose prechart ends after the first simregion. -/
def boundary_chart : List simregion_t := [prechart_region, mainchart_region]

/-- A concrete LSC template: a message and a condition at vertical location 1,
an update at vertical location 3, a message at vertical location 2. -/
def lsc_template : template_t :=
  { messages := [{ nr := 0, location := 1, is_in_prechart := true, src := some 0, dst := some 1 },
                 { nr := 3, location := 2, src := some 1, dst := some 0 }]
    conditions := [{ nr := 1, location := 1, is_in_prechart := true, anchors := [0] }]
    updates := [{ nr := 2, location := 3, anchor := some 0 }] }

/-- A concrete timed-automaton template with two locations and one branchpoint. -/
def ta_template : template_t := { locations := [1, 2], branchpoints := [3] }

/-- The instance produced by specializing base_instance with the single
argument expression 7 and no newly introduced parameters. -/
def specialized_instance : instance_t :=
  { uid := 9, parameters := [2, 1], mapping := [(1, 7)], arguments := 1, unbound := 1,
    restricted := [] }

/-- Pointwise implication on the six document-wide boolean flags: every flag
true in the first document is true in the second. -/
def flags_le (d1 d2 : Document) : Prop :=
  (d1.hasPriorities = true → d2.hasPriorities = true) ∧
  (d1.hasStrictInv = true → d2.hasStrictInv = true) ∧
  (d1.stopsClock = true → d2.stopsClock = true) ∧
  (d1.hasStrictLowControlledGuards = true → d2.hasStrictLowControlledGuards = true) ∧
  (d1.hasGuardOnRecvBroadcast = true → d2.hasGuardOnRecvBroadcast = true) ∧
  (d1.hasUrgentTrans = true → d2.hasUrgentTrans = true)

end UTAP

namespace UTAP

theorem find_string_eq_none {l : List String} {s : String} :
    find_string l s = none ↔ s ∉ l := by
  induction l with
  | nil => simp [find_string]
  | cons x xs ih =>
    by_cases h : x = s
    · subst h
      simp [find_string]
    · have h2 : ¬s = x := fun hs => h hs.symm
      simp [find_string, h, h2, Option.map_eq_none', ih]

theorem find_string_append_self {l : List String} {s : String} (h : s ∉ l) :
    find_string (l ++ [s]) s = some l.length := by
  induction l with
  | nil => simp [find_string]
  | cons x xs ih =>
    have hx : x ≠ s := fun hxs => h (hxs ▸ List.mem_cons_self x xs)
    have hs : s ∉ xs := fun hs => h (List.mem_cons_of_mem x hs)
    simp [find_string, hx, ih hs]

theorem find_string_isSome_of_mem {l : List String} {s : String} (h : s ∈ l) :
    (find_string l s).isSome := by
  cases hf : find_string l s with
  | none => exact absurd (find_string_eq_none.mp hf) (fun hn => hn h)
  | some i => rfl

/-- C5: add_string_if_new is idempotent: a second insert of the same string
returns the same index and leaves the document unchanged; a new string grows
the table by exactly one entry and gets the new last index; a duplicate
insert leaves the table unchanged and returns the index of the existing
(first) occurrence. -/
theorem add_string_if_new_idempotent (doc : Document) (s : String) :
    (((doc.add_string_if_new s).2.add_string_if_new s).1 = (doc.add_string_if_new s).1 ∧
      ((doc.add_string_if_new s).2.add_string_if_new s).2 = (doc.add_string_if_new s).2) ∧
    (s ∉ doc.strings →
      (doc.add_string_if_new s).2.strings.length = doc.strings.length + 1 ∧
      (doc.add_string_if_new s).1 = doc.strings.length) ∧
    (s ∈ doc.strings →
      (doc.add_string_if_new s).2 = doc ∧
      find_string doc.strings s = some (doc.add_string_if_new s).1) := by
  cases hf : find_string doc.strings s with
  | none =>
    have hnm : s ∉ doc.strings := find_string_eq_none.mp hf
    have happ : find_string (doc.strings ++ [s]) s = some doc.strings.length :=
      find_string_append_self hnm
    refine ⟨?_, fun _ => ?_, fun hmem => absurd hmem hnm⟩
    · simp [Document.add_string_if_new, hf, happ]
    · simp [Document.add_string_if_new, hf]
  | some i =>
    refine ⟨?_, fun hnm => ?_, fun _ => ?_⟩
    · simp [Document.add_string_if_new, hf]
    · have hnone : find_string doc.strings s = none := find_string_eq_none.mpr hnm
      simp [hf] at hnone
    · simp [Document.add_string_if_new, hf]

/-- C7: every add_error and add_warning call appends exactly one diagnostic;
after n add_error calls on a fresh document get_errors has size n and
has_errors is true iff n is positive; clear_errors yields has_errors false. -/
theorem add_error_accumulates :
    (∀ (doc : Document) (pos : position_t) (msg ctx : String),
      (doc.add_error pos msg ctx).get_errors.length = doc.get_errors.length + 1) ∧
    (∀ (doc : Document) (pos : position_t) (msg ctx : String),
      (doc.add_warning pos msg ctx).get_warnings.length = doc.get_warnings.length + 1) ∧
    (∀ n : Nat, (iterate_add_error {} n).get_errors.length = n ∧
      ((iterate_add_error {} n).has_errors = true ↔ 0 < n)) ∧
    (∀ doc : Document, doc.clear_errors.has_errors = false) := by
  refine ⟨?_, ?_, ?_, ?_⟩
  · intro doc pos msg ctx
    simp [Document.add_error, Document.get_errors]
  · intro doc pos msg ctx
    simp [Document.add_warning, Document.get_warnings]
  · intro n
    induction n with
    | zero => simp [iterate_add_error, Document.get_errors, Document.has_errors]
    | succ m ih =>
      refine ⟨?_, ?_⟩
      · simp [iterate_add_error, Document.add_error, Document.get_errors] at ih ⊢
        exact ih.1
      · simp [iterate_add_error, Document.add_error, Document.has_errors]
  · intro doc
    simp [Document.clear_errors, Document.has_errors]

/-- C9: last_library on a document whose library registry is empty is the
hard failure (the embedded std::runtime_error), and no diagnostic is
recorded; after a successful add, last_library returns the most recently
added library without failing. -/
theorem last_library_spec (doc : Document) (lib : library_t) :
    (doc.libraries = [] →
      doc.last_library = Except.error "runtime_error" ∧ doc.get_errors = doc.errors) ∧
    (doc.add lib).last_library = Except.ok lib ∧
    (doc.add lib).get_errors = doc.get_errors := by
  refine ⟨fun h => ⟨?_, rfl⟩, ?_, ?_⟩
  · simp [Document.last_library, h]
  · simp [Document.last_library, Document.add]
  · simp [Document.add, Document.get_errors]

theorem apply_flags_le (doc : Document) (op : DocOp) : flags_le doc (doc.apply op) := by
  cases op <;>
    simp [flags_le, Document.apply, Document.add_error, Document.add_warning,
      Document.clear_errors, Document.clear_warnings, Document.add_string,
      Document.add_string_if_new, Document.add, Document.set_supported_methods] <;>
    split <;> simp

theorem flags_le_trans {d1 d2 d3 : Document} (h12 : flags_le d1 d2) (h23 : flags_le d2 d3) :
    flags_le d1 d3 :=
  ⟨fun h => h23.1 (h12.1 h), fun h => h23.2.1 (h12.2.1 h),
   fun h => h23.2.2.1 (h12.2.2.1 h), fun h => h23.2.2.2.1 (h12.2.2.2.1 h),
   fun h => h23.2.2.2.2.1 (h12.2.2.2.2.1 h), fun h => h23.2.2.2.2.2 (h12.2.2.2.2.2 h)⟩

theorem run_flags_le (doc : Document) (ops : List DocOp) : flags_le doc (doc.run ops) := by
  induction ops generalizing doc with
  | nil => exact ⟨id, id, id, id, id, id⟩
  | cons op ops ih =>
    exact flags_le_trans (apply_flags_le doc op) (ih (doc.apply op))

/-- C8: the six document-wide boolean flags are monotonic: once a query
returns true, no sequence of public Document operations makes it return
false again. -/
theorem document_flags_monotonic (doc : Document) (ops : List DocOp) :
    (doc.has_priority_declaration = true → (doc.run ops).has_priority_declaration = true) ∧
    (doc.has_strict_invariants = true → (doc.run ops).has_strict_invariants = true) ∧
    (doc.has_stop_watch = true → (doc.run ops).has_stop_watch = true) ∧
    (doc.has_strict_lower_bound_on_controllable_edges = true →
      (doc.run ops).has_strict_lower_bound_on_controllable_edges = true) ∧
    (doc.has_clock_guard_recv_broadcast = true →
      (doc.run ops).has_clock_guard_recv_broadcast = true) ∧
    (doc.has_urgent_transition = true → (doc.run ops).has_urgent_transition = true) :=
  run_flags_le doc ops

theorem apply_supported_methods_unchanged (doc : Document) (op : DocOp)
    (h : op.is_set_supported_methods = false) :
    (doc.apply op).supported_methods = doc.supported_methods := by
  cases op <;>
    simp_all [DocOp.is_set_supported_methods, Document.apply, Document.add_error,
      Document.add_warning, Document.clear_errors, Document.clear_warnings,
      Document.add_string, Document.add_string_if_new, Document.add,
      Document.set_supported_methods]
  split <;> simp

theorem run_supported_methods_unchanged (doc : Document) (ops : List DocOp)
    (h : ∀ op ∈ ops, op.is_set_supported_methods = false) :
    (doc.run ops).supported_methods = doc.supported_methods := by
  induction ops generalizing doc with
  | nil => rfl
  | cons op ops ih =>
    have := apply_supported_methods_unchanged doc op (h op (List.mem_cons_self op ops))
    calc (Document.run (doc.apply op) ops).supported_methods
        = (doc.apply op).supported_methods :=
          ih (doc.apply op) fun o ho => h o (List.mem_cons_of_mem op ho)
      _ = doc.supported_methods := this

/-- C10: a freshly constructed Document reports all three analysis methods
(symbolic, stochastic, concrete) as supported, and keeps doing so under any
sequence of public operations that does not call set_supported_methods. -/
theorem fresh_document_supported_methods (ops : List DocOp)
    (h : ∀ op ∈ ops, op.is_set_supported_methods = false) :
    (Document.run {} ops).get_supported_methods =
      { symbolic := true, stochastic := true, concrete := true } := by
  unfold Document.get_supported_methods
  rw [run_supported_methods_unchanged {} ops h]

/-- Witness for C10: a fresh document, after recording a stop watch and
interning a string, still reports all three analysis methods supported. -/
theorem fresh_document_supported_methods_witness :
    (Document.run {} [DocOp.record_stop_watch,
        DocOp.add_string_if_new_op "x"]).get_supported_methods =
      { symbolic := true, stochastic := true, concrete := true } :=
  fresh_document_supported_methods _ (by decide)

/-- Counterexample to C1: specializing a base instance that has two unbound
parameters with one argument while introducing one new parameter yields an
instance with 2 unbound parameters, not base.unbound - 1 = 1: newly
introduced parameters are unbound as well. -/
theorem add_instance_unbound_counterexample :
    ∃ inst, add_instance 9 base_instance [5] [7] = Except.ok inst ∧
      ¬inst.unbound = base_instance.unbound - 1 :=
  ⟨_, rfl, by decide⟩

/-- C1 (amended): specializing a base instance with k arguments (k at most
base.unbound) and newly introduced parameters params yields an instance with
base.unbound - k + params.length unbound parameters — exactly base.unbound - k
when no new parameter is introduced; each argument is bound, in order, to the
leading unbound parameters of the base, and the mapping is the base's mapping
plus exactly k new bindings. -/
theorem add_instance_spec (name : symbol_t) (base : instance_t)
    (params : List symbol_t) (args : List expression_t) (inst : instance_t)
    (hwf : base.unbound ≤ base.parameters.length)
    (hok : add_instance name base params args = Except.ok inst) :
    inst.unbound = base.unbound - args.length + params.length ∧
    (params = [] → inst.unbound = base.unbound - args.length) ∧
    inst.mapping = base.mapping ++ (base.parameters.take args.length).zip args ∧
    inst.mapping.length = base.mapping.length + args.length ∧
    inst.mapping.take base.mapping.length = base.mapping ∧
    (inst.mapping.drop base.mapping.length).map Prod.fst =
      base.parameters.take args.length ∧
    (inst.mapping.drop base.mapping.length).map Prod.snd = args := by
  by_cases hk : args.length ≤ base.unbound
  · simp only [add_instance, if_pos hk, Except.ok.injEq] at hok
    subst hok
    have hlen_take : (base.parameters.take args.length).length = args.length := by
      rw [List.length_take]
      exact Nat.min_eq_left (le_trans hk hwf)
    refine ⟨rfl, fun hp => by simp [hp], rfl, ?_, ?_, ?_, ?_⟩
    · simp [List.length_zip, hlen_take]
    · simp
    · simp only [List.drop_left]
      exact List.map_fst_zip _ _ (le_of_eq hlen_take)
    · simp only [List.drop_left]
      exact List.map_snd_zip _ _ (ge_of_eq hlen_take)
  · simp [add_instance, if_neg hk] at hok

/-- Witness for C1 (amended): specializing the concrete base instance with
one argument and no new parameters gives one unbound parameter and one new
binding. -/
theorem add_instance_spec_witness :
    specialized_instance.unbound =
        base_instance.unbound - List.length [(7 : expression_t)] +
          List.length ([] : List symbol_t) ∧
      specialized_instance.mapping.length = base_instance.mapping.length + 1 :=
  ⟨(add_instance_spec 9 base_instance [] [7] specialized_instance (by decide) rfl).1,
   (add_instance_spec 9 base_instance [] [7] specialized_instance (by decide) rfl).2.2.2.1⟩

theorem take_subset_take_succ {α} (l : List α) (n : Nat) : l.take n ⊆ l.take (n + 1) := by
  intro x hx
  rw [List.take_succ]
  exact List.mem_append_left _ hx

/-- Counterexample to C3: the cut at the prechart/mainchart boundary contains
only prechart simregions, so is_in_prechart() is true, while the simregion
immediately following it is not a prechart member: the claimed equivalence
fails there. -/
theorem cut_prechart_iff_counterexample :
    ¬((cut_at boundary_chart 1).is_in_prechart = true ↔
        ∀ s ∈ immediate_followers boundary_chart 1, s.is_in_prechart = true) := by
  decide

/-- C3 (amended): if cut C2 immediately follows cut C1 in the derived order
and C1.is_in_prechart() is false then C2.is_in_prechart() is also false; and
when the derived order keeps the prechart downward closed, a cut all of whose
immediately following simregions are prechart members is itself in the
prechart. The converse fails at the prechart/mainchart boundary. -/
theorem cut_prechart_monotonic (chart : List simregion_t) (n : Nat) :
    ((cut_at chart n).is_in_prechart = false →
      (cut_at chart (n + 1)).is_in_prechart = false) ∧
    (prechart_downward_closed chart → n < chart.length →
      (∀ s ∈ immediate_followers chart n, s.is_in_prechart = true) →
      (cut_at chart n).is_in_prechart = true) := by
  constructor
  · intro h
    by_contra h2
    have hall : (cut_at chart (n + 1)).is_in_prechart = true := by
      cases hv : (cut_at chart (n + 1)).is_in_prechart
      · exact absurd hv h2
      · rfl
    have : (cut_at chart n).is_in_prechart = true := by
      simp only [cut_at, cut_t.is_in_prechart, List.all_eq_true] at hall ⊢
      exact fun s hs => hall s (take_subset_take_succ chart n hs)
    simp [this] at h
  · intro hclosed hn hf
    have hget : chart.get ⟨n, hn⟩ ∈ immediate_followers chart n := by
      rw [immediate_followers, List.drop_eq_get_cons hn]
      exact List.mem_cons_self _ _
    have hfollow : (chart.get ⟨n, hn⟩).is_in_prechart = true := hf _ hget
    simp only [cut_at, cut_t.is_in_prechart, List.all_eq_true]
    intro s hs
    obtain ⟨⟨i, hi⟩, hsget⟩ := List.mem_iff_get.mp hs
    have hilt : i < n := lt_of_lt_of_le hi (by simp [List.length_take])
    have hich : i < chart.length := lt_trans hilt hn
    have hgt : (chart.take n).get ⟨i, hi⟩ = chart.get ⟨i, hich⟩ := List.get_take' chart
    have hrel := (List.pairwise_iff_get.mp hclosed) ⟨i, hich⟩ ⟨n, hn⟩ hilt
    rw [← hsget, hgt]
    exact hrel hfollow

theorem build_cut_go (c : cut_t) (ss : List simregion_t) :
    (ss.foldl cut_t.add c).simregions = c.simregions ++ ss := by
  induction ss generalizing c with
  | nil => simp
  | cons s ss ih =>
    simp [List.foldl_cons, ih, cut_t.add]

theorem build_cut_simregions (ss : List simregion_t) : (build_cut ss).simregions = ss := by
  simp [build_cut, build_cut_go]

/-- C4: cut equality is order-independent: building the same simregions in
two different orders yields cuts that cut_t::equals declares equal, and,
generally, equals holds exactly when the two cuts contain the same set of
simregions compared by value, so it is false whenever the sets differ. -/
theorem cut_equals_insertion_order (l1 l2 : List simregion_t) :
    (l1.Perm l2 → (build_cut l1).equals (build_cut l2) = true) ∧
    ((build_cut l1).equals (build_cut l2) = true ↔ ∀ s, s ∈ l1 ↔ s ∈ l2) := by
  have hiff : (build_cut l1).equals (build_cut l2) = true ↔ ∀ s, s ∈ l1 ↔ s ∈ l2 := by
    simp only [cut_t.equals, cut_t.contains, build_cut_simregions, Bool.and_eq_true,
      List.all_eq_true, List.elem_iff]
    constructor
    · exact fun h s => ⟨fun hs => h.1 s hs, fun hs => h.2 s hs⟩
    · exact fun h => ⟨fun s hs => (h s).mp hs, fun s hs => (h s).mpr hs⟩
  exact ⟨fun hperm => hiff.mpr fun s => hperm.mem_iff, hiff⟩

theorem resolve_endpoint_eq_none (t : template_t) (s : symbol_t) :
    resolve_endpoint t s = none ↔ s ∉ t.locations ∧ s ∉ t.branchpoints := by
  unfold resolve_endpoint
  by_cases hl : s ∈ t.locations
  · simp [hl]
  · by_cases hb : s ∈ t.branchpoints <;> simp [hl, hb]

theorem resolve_endpoint_shape (t : template_t) (s : symbol_t)
    (p : Option symbol_t × Option symbol_t) (h : resolve_endpoint t s = some p) :
    (∃ v, p.1 = some v) ∧ p.2 = none ∨ p.1 = none ∧ ∃ v, p.2 = some v := by
  unfold resolve_endpoint at h
  by_cases hl : s ∈ t.locations
  · simp [hl] at h
    subst h
    exact Or.inl ⟨⟨s, rfl⟩, rfl⟩
  · by_cases hb : s ∈ t.branchpoints
    · simp [hl, hb] at h
      subst h
      exact Or.inr ⟨rfl, s, rfl⟩
    · simp [hl, hb] at h

/-- C6: when an endpoint symbol of add_edge resolves to neither a location
nor a branchpoint of the template, exactly one UnknownEndpoint error is
produced and the edge collection is unchanged; when both endpoints resolve,
no error is produced, exactly one edge is appended, and that edge has
exactly one of src/srcb set and exactly one of dst/dstb set. -/
theorem add_edge_endpoints (t : template_t) (src dst : symbol_t)
    (control : Bool) (actname : String) :
    ((src ∉ t.locations ∧ src ∉ t.branchpoints) ∨ (dst ∉ t.locations ∧ dst ∉ t.branchpoints) →
      (t.add_edge src dst control actname).2 = [AddEdgeError.UnknownEndpoint] ∧
      (t.add_edge src dst control actname).1.edges = t.edges) ∧
    ((¬(src ∉ t.locations ∧ src ∉ t.branchpoints)) →
      (¬(dst ∉ t.locations ∧ dst ∉ t.branchpoints)) →
      (t.add_edge src dst control actname).2 = [] ∧
      (t.add_edge src dst control actname).1.edges.length = t.edges.length + 1 ∧
      ∀ e ∈ (t.add_edge src dst control actname).1.edges.drop t.edges.length,
        ((∃ v, e.src = some v) ∧ e.srcb = none ∨ e.src = none ∧ ∃ v, e.srcb = some v) ∧
        ((∃ v, e.dst = some v) ∧ e.dstb = none ∨ e.dst = none ∧ ∃ v, e.dstb = some v)) := by
  constructor
  · intro h
    have hnone : resolve_endpoint t src = none ∨ resolve_endpoint t dst = none := by
      cases h with
      | inl h => exact Or.inl ((resolve_endpoint_eq_none t src).mpr h)
      | inr h => exact Or.inr ((resolve_endpoint_eq_none t dst).mpr h)
    unfold template_t.add_edge
    cases hs : resolve_endpoint t src with
    | none => exact ⟨rfl, rfl⟩
    | some s =>
      cases hd : resolve_endpoint t dst with
      | none => exact ⟨rfl, rfl⟩
      | some d =>
        rw [hs, hd] at hnone
        rcases hnone with h | h <;> exact absurd h (by simp)
  · intro hsrc hdst
    have hs : resolve_endpoint t src ≠ none := fun h =>
      hsrc ((resolve_endpoint_eq_none t src).mp h)
    have hd : resolve_endpoint t dst ≠ none := fun h =>
      hdst ((resolve_endpoint_eq_none t dst).mp h)
    cases hsv : resolve_endpoint t src with
    | none => exact absurd hsv hs
    | some s =>
      cases hdv : resolve_endpoint t dst with
      | none => exact absurd hdv hd
      | some d =>
        unfold template_t.add_edge
        rw [hsv, hdv]
        refine ⟨rfl, by simp, ?_⟩
        intro e he
        simp only [List.drop_left, List.mem_singleton] at he
        subst he
        have hss := resolve_endpoint_shape t src s hsv
        have hds := resolve_endpoint_shape t dst d hdv
        exact ⟨hss, hds⟩

/-- Witness for C6 is not needed (no top-level hypotheses), but the error
branch is exercised on the concrete template: symbol 7 is neither a location
nor a branchpoint of ta_template. -/
theorem add_edge_endpoints_example :
    (ta_template.add_edge 1 7 true "a").2 = [AddEdgeError.UnknownEndpoint] ∧
    (ta_template.add_edge 1 7 true "a").1.edges = ta_template.edges := by
  decide

theorem mem_insert_loc {x a : Int} {l : List Int} :
    a ∈ insert_loc x l ↔ a = x ∨ a ∈ l := by
  induction l with
  | nil => simp [insert_loc]
  | cons y ys ih =>
    by_cases h1 : x < y
    · rw [insert_loc, if_pos h1]
      simp
    · by_cases h2 : x = y
      · rw [insert_loc, if_neg h1, if_pos h2]
        subst h2
        simp only [List.mem_cons]
        tauto
      · rw [insert_loc, if_neg h1, if_neg h2]
        simp only [List.mem_cons, ih]
        tauto

theorem insert_loc_sorted {x : Int} {l : List Int} (h : l.Pairwise (· < ·)) :
    (insert_loc x l).Pairwise (· < ·) := by
  induction l with
  | nil => simpa [insert_loc] using List.pairwise_singleton _ x
  | cons y ys ih =>
    rw [List.pairwise_cons] at h
    obtain ⟨hy, hys⟩ := h
    by_cases h1 : x < y
    · rw [insert_loc, if_pos h1, List.pairwise_cons]
      refine ⟨?_, List.pairwise_cons.mpr ⟨hy, hys⟩⟩
      intro a ha
      rcases List.mem_cons.mp ha with h | h
      · exact h ▸ h1
      · exact lt_trans h1 (hy a h)
    · by_cases h2 : x = y
      · rw [insert_loc, if_neg h1, if_pos h2]
        exact List.pairwise_cons.mpr ⟨hy, hys⟩
      · have hyx : y < x := by omega
        rw [insert_loc, if_neg h1, if_neg h2, List.pairwise_cons]
        refine ⟨?_, ih hys⟩
        intro a ha
        rcases mem_insert_loc.mp ha with h | h
        · exact h ▸ hyx
        · exact hy a h

theorem sort_locs_sorted (l : List Int) : (sort_locs l).Pairwise (· < ·) := by
  induction l with
  | nil => simp [sort_locs]
  | cons x xs ih => exact insert_loc_sorted ih

theorem mem_sort_locs {a : Int} {l : List Int} : a ∈ sort_locs l ↔ a ∈ l := by
  induction l with
  | nil => simp [sort_locs]
  | cons x xs ih =>
    unfold sort_locs
    rw [mem_insert_loc, ih, List.mem_cons]

theorem find?_ne_none_of_mem {α} {p : α → Bool} {l : List α} {x : α}
    (hx : x ∈ l) (hp : p x = true) : l.find? p ≠ none := by
  intro h
  exact absurd hp (by simpa using List.find?_eq_none.mp h x hx)

theorem region_at_message {t : template_t} {loc : Int}
    (h : ∃ m ∈ t.messages, m.location = loc) :
    (region_at t loc).message ∈ t.messages ∧ (region_at t loc).message.location = loc := by
  obtain ⟨m, hm, hl⟩ := h
  have hne : t.messages.find? (fun m => m.location == loc) ≠ none :=
    find?_ne_none_of_mem hm (by simp [hl])
  cases hf : t.messages.find? (fun m => m.location == loc) with
  | none => exact absurd hf hne
  | some m' =>
    have hmem := List.mem_of_find?_eq_some hf
    have hpred := List.find?_some hf
    simp only [beq_iff_eq] at hpred
    simp [region_at, hf, hmem, hpred]

theorem region_at_condition {t : template_t} {loc : Int}
    (h : ∃ c ∈ t.conditions, c.location = loc) :
    (region_at t loc).condition ∈ t.conditions ∧
      (region_at t loc).condition.location = loc := by
  obtain ⟨c, hc, hl⟩ := h
  have hne : t.conditions.find? (fun c => c.location == loc) ≠ none :=
    find?_ne_none_of_mem hc (by simp [hl])
  cases hf : t.conditions.find? (fun c => c.location == loc) with
  | none => exact absurd hf hne
  | some c' =>
    have hmem := List.mem_of_find?_eq_some hf
    have hpred := List.find?_some hf
    simp only [beq_iff_eq] at hpred
    simp [region_at, hf, hmem, hpred]

theorem region_at_update {t : template_t} {loc : Int}
    (h : ∃ u ∈ t.updates, u.location = loc) :
    (region_at t loc).update ∈ t.updates ∧ (region_at t loc).update.location = loc := by
  obtain ⟨u, hu, hl⟩ := h
  have hne : t.updates.find? (fun u => u.location == loc) ≠ none :=
    find?_ne_none_of_mem hu (by simp [hl])
  cases hf : t.updates.find? (fun u => u.location == loc) with
  | none => exact absurd hf hne
  | some u' =>
    have hmem := List.mem_of_find?_eq_some hf
    have hpred := List.find?_some hf
    simp only [beq_iff_eq] at hpred
    simp [region_at, hf, hmem, hpred]

theorem region_at_no_message {t : template_t} {loc : Int}
    (h : ∀ m ∈ t.messages, m.location ≠ loc) :
    (region_at t loc).message = {} := by
  have hf : t.messages.find? (fun m => m.location == loc) = none :=
    List.find?_eq_none.mpr fun m hm => by simp [h m hm]
  simp [region_at, hf]

theorem region_at_no_condition {t : template_t} {loc : Int}
    (h : ∀ c ∈ t.conditions, c.location ≠ loc) :
    (region_at t loc).condition = {} := by
  have hf : t.conditions.find? (fun c => c.location == loc) = none :=
    List.find?_eq_none.mpr fun c hc => by simp [h c hc]
  simp [region_at, hf]

theorem region_at_no_update {t : template_t} {loc : Int}
    (h : ∀ u ∈ t.updates, u.location ≠ loc) :
    (region_at t loc).update = {} := by
  have hf : t.updates.find? (fun u => u.location == loc) = none :=
    List.find?_eq_none.mpr fun u hu => by simp [h u hu]
  simp [region_at, hf]

theorem region_at_get_loc {t : template_t} {loc : Int}
    (hm : ∀ m ∈ t.messages, m.nr ≠ -1)
    (hc : ∀ c ∈ t.conditions, c.nr ≠ -1)
    (hu : ∀ u ∈ t.updates, u.nr ≠ -1)
    (hloc : loc ∈ event_locations t) :
    (region_at t loc).get_loc = loc := by
  by_cases hmsg : ∃ m ∈ t.messages, m.location = loc
  · obtain ⟨hmem, hl⟩ := region_at_message hmsg
    have hnr : (region_at t loc).message.nr ≠ -1 := hm _ hmem
    have hhas : (region_at t loc).has_message = true := by
      simp [simregion_t.has_message, LSC_element_t.empty, hnr]
    simp [simregion_t.get_loc, hhas, hl]
  · push_neg at hmsg
    have hmnone : (region_at t loc).message = {} := region_at_no_message hmsg
    have hnomsg : (region_at t loc).has_message = false := by
      simp [simregion_t.has_message, hmnone, LSC_element_t.empty]
    by_cases hcond : ∃ c ∈ t.conditions, c.location = loc
    · obtain ⟨hmem, hl⟩ := region_at_condition hcond
      have hnr : (region_at t loc).condition.nr ≠ -1 := hc _ hmem
      have hhas : (region_at t loc).has_condition = true := by
        simp [simregion_t.has_condition, LSC_element_t.empty, hnr]
      simp [simregion_t.get_loc, hnomsg, hhas, hl]
    · push_neg at hcond
      have hcnone : (region_at t loc).condition = {} := region_at_no_condition hcond
      have hnocond : (region_at t loc).has_condition = false := by
        simp [simregion_t.has_condition, hcnone, LSC_element_t.empty]
      have hupd : ∃ u ∈ t.updates, u.location = loc := by
        simp only [event_locations, List.mem_append, List.mem_map] at hloc
        rcases hloc with (⟨m, hmm, hml⟩ | ⟨c, hcc, hcl⟩) | ⟨u, huu, hul⟩
        · exact absurd hml (hmsg m hmm)
        · exact absurd hcl (hcond c hcc)
        · exact ⟨u, huu, hul⟩
      obtain ⟨hmem, hl⟩ := region_at_update hupd
      have hnr : (region_at t loc).update.nr ≠ -1 := hu _ hmem
      have hhas : (region_at t loc).has_update = true := by
        simp [simregion_t.has_update, LSC_element_t.empty, hnr]
      simp [simregion_t.get_loc, hnomsg, hnocond, hhas, hl]

theorem get_simregions_map_get_loc (t : template_t)
    (hm : ∀ m ∈ t.messages, m.nr ≠ -1)
    (hc : ∀ c ∈ t.conditions, c.nr ≠ -1)
    (hu : ∀ u ∈ t.updates, u.nr ≠ -1) :
    t.get_simregions.map simregion_t.get_loc = sort_locs (event_locations t) := by
  show ((sort_locs (event_locations t)).map (region_at t)).map simregion_t.get_loc = _
  rw [List.map_map]
  have : ∀ loc ∈ sort_locs (event_locations t),
      (simregion_t.get_loc ∘ region_at t) loc = id loc := fun loc hloc =>
    region_at_get_loc hm hc hu (mem_sort_locs.mp hloc)
  rw [List.map_congr_left this, List.map_id]

/-- C2: get_simregions yields the simregions ordered strictly by vertical
location (the compare_simregion order), with exactly one simregion per
distinct vertical slot of the template's events; the simregion of each slot
combines, in construction order, the message, condition and update occurring
at that slot (each the first such event in input order, the vertical location
of the slot taken from the message first, then the condition, then the
update), and the members without an event at that slot stay the empty
sentinel. All events are assumed well-formed (placement number not -1, the
empty-sentinel marker). -/
theorem get_simregions_ordered (t : template_t)
    (hm : ∀ m ∈ t.messages, m.nr ≠ -1)
    (hc : ∀ c ∈ t.conditions, c.nr ≠ -1)
    (hu : ∀ u ∈ t.updates, u.nr ≠ -1) :
    t.get_simregions.Pairwise (fun x y => compare_simregion x y = true) ∧
    (t.get_simregions.map simregion_t.get_loc).Nodup ∧
    (∀ loc : Int,
      loc ∈ t.get_simregions.map simregion_t.get_loc ↔ loc ∈ event_locations t) ∧
    (∀ r ∈ t.get_simregions,
      r = region_at t r.get_loc ∧
      ((∃ m ∈ t.messages, m.location = r.get_loc) →
        r.has_message = true ∧ r.message ∈ t.messages ∧
          r.message.location = r.get_loc) ∧
      ((∀ m ∈ t.messages, m.location ≠ r.get_loc) → r.message = {}) ∧
      ((∃ c ∈ t.conditions, c.location = r.get_loc) →
        r.condition ∈ t.conditions ∧ r.condition.location = r.get_loc) ∧
      ((∀ c ∈ t.conditions, c.location ≠ r.get_loc) → r.condition = {}) ∧
      ((∃ u ∈ t.updates, u.location = r.get_loc) →
        r.update ∈ t.updates ∧ r.update.location = r.get_loc) ∧
      ((∀ u ∈ t.updates, u.location ≠ r.get_loc) → r.update = {})) := by
  have hmap := get_simregions_map_get_loc t hm hc hu
  have hsorted : (t.get_simregions.map simregion_t.get_loc).Pairwise (· < ·) := by
    rw [hmap]
    exact sort_locs_sorted _
  refine ⟨?_, ?_, ?_, ?_⟩
  · rw [List.pairwise_map] at hsorted
    exact hsorted.imp fun h => by simpa [compare_simregion] using h
  · exact hsorted.imp fun h => ne_of_lt h
  · intro loc
    rw [hmap, mem_sort_locs]
  · intro r hr
    obtain ⟨loc, hloc, rfl⟩ := List.mem_map.mp hr
    have hgl : (region_at t loc).get_loc = loc :=
      region_at_get_loc hm hc hu (mem_sort_locs.mp hloc)
    rw [hgl]
    refine ⟨rfl, fun h => ?_, region_at_no_message, fun h => region_at_condition h,
      region_at_no_condition, fun h => region_at_update h, region_at_no_update⟩
    obtain ⟨hmem, hl⟩ := region_at_message h
    have hnr : (region_at t loc).message.nr ≠ -1 := hm _ hmem
    refine ⟨?_, hmem, hl⟩
    simp [simregion_t.has_message, LSC_element_t.empty, hnr]

/-- Witness for C2: the simregions of the concrete LSC template are sorted by
compare_simregion and occupy the distinct vertical slots 1, 2 and 3. -/
theorem get_simregions_ordered_witness :
    lsc_template.get_simregions.Pairwise (fun x y => compare_simregion x y = true) ∧
    lsc_template.get_simregions.map simregion_t.get_loc = [1, 2, 3] :=
  ⟨(get_simregions_ordered lsc_template (by decide) (by decide) (by decide)).1,
   by decide⟩

end UTAP
